import Mathlib

/-!
# Verification of the dublplay backend (src/backend/main.py)

Shallow embedding of the odds-arithmetic helpers, the parlay endpoint,
the sticky-odds store, the odds merge, the games endpoint fallback and
the Gemini score parser, together with proofs settling the spec claims.

CPython `float` values are modelled as exact rationals (`ℚ`); the spec's
claims are stated "mod rounding", and every rounding step the code
performs (`round(x)`, `round(x, n)`) is modelled explicitly by
`pyRound` / `pyRoundTo` below, which implement Python's round-half-to-even.
-/

namespace Dublplay

/-- Python 3 `round(x)` on a rational: round half to even, returning an
integer. -/
def pyRound (q : ℚ) : ℤ :=
  if q - ⌊q⌋ < 1/2 then ⌊q⌋
  else if 1/2 < q - ⌊q⌋ then ⌊q⌋ + 1
  else if ⌊q⌋ % 2 = 0 then ⌊q⌋ else ⌊q⌋ + 1

/-- Python 3 `round(x, n)`: round to `n` decimal places, half to even. -/
def pyRoundTo (q : ℚ) (n : ℕ) : ℚ :=
  (pyRound (q * 10 ^ n) : ℚ) / 10 ^ n

/-- Value of a digit sequence in base 10. -/
def digitsVal (ds : List Char) : ℕ :=
  ds.foldl (fun n c => 10 * n + (c.toNat - 48)) 0

/-- Nonempty all-digit run parsed to a natural number, else `none`. -/
def parseDigits (ds : List Char) : Option ℕ :=
  if ds ≠ [] ∧ ds.all Char.isDigit then some (digitsVal ds) else none

/-- Python `int(str)`: strip surrounding whitespace, optional sign, then a
nonempty digit sequence; anything else raises `ValueError`, modelled as
`none`.  (Underscore digit grouping, accepted by CPython, is not modelled;
it never occurs in odds strings.) -/
def parseIntChars (cs : List Char) : Option ℤ :=
  let t := ((cs.dropWhile Char.isWhitespace).reverse.dropWhile Char.isWhitespace).reverse
  match t with
  | '-' :: ds => (parseDigits ds).map (fun n => -(n : ℤ))
  | '+' :: ds => (parseDigits ds).map (fun n => (n : ℤ))
  | ds => (parseDigits ds).map (fun n => (n : ℤ))

/-- `int(odds_str.replace("+", ""))`: Python `str.replace` with an empty
replacement removes every occurrence of `'+'`; a string `int()` rejects
raises `ValueError`, modelled as `none`. -/
def pyParseInt (s : String) : Option ℤ :=
  parseIntChars (s.data.filter (fun c => c ≠ '+'))

/-- `american_to_decimal` (main.py:1308-1310).  `none` models the two ways
the Python function can raise: `ValueError` from `int()` on a non-numeric
string, and `ZeroDivisionError` from `100 / abs(o)` when the string is "0". -/
def american_to_decimal (odds_str : String) : Option ℚ :=
  match pyParseInt odds_str with
  | none => none
  | some o =>
      if o = 0 then none
      else some (if o > 0 then (o : ℚ) / 100 + 1 else 100 / (|o| : ℤ) + 1)

/-- `decimal_to_american` (main.py:1313-1316), returning the signed integer
the formatted string denotes: the `decimal >= 2.0` branch returns
`f"+{int(round((decimal - 1) * 100))}"` (denoting the rounded integer, which
that branch makes positive) and the other branch returns
`f"{int(round(-100 / (decimal - 1)))}"`. -/
def decimal_to_american (decimal : ℚ) : ℤ :=
  if decimal ≥ 2 then pyRound ((decimal - 1) * 100)
  else pyRound (-100 / (decimal - 1))

/-- Result dict of `calculate_parlay` (main.py:1741-1747). -/
structure ParlayResult where
  legs : ℕ
  combined_odds : ℤ
  combined_decimal : ℚ
  implied_prob : ℚ
  payout_per_100 : ℚ
deriving DecidableEq, Repr

/-- `[american_to_decimal(o) for o in req.odds]` inside the `try` block of
`calculate_parlay`: the whole comprehension fails if any leg fails. -/
def parseAllLegs : List String → Option (List ℚ)
  | [] => some []
  | o :: rest =>
      match american_to_decimal o, parseAllLegs rest with
      | some d, some ds => some (d :: ds)
      | _, _ => none

/-- `calculate_parlay` (main.py:1730-1747).  `Except.error detail` models
`raise HTTPException(status_code=400, detail=detail)`; both raises in the
source carry status 400. -/
def calculate_parlay (odds : List String) : Except String ParlayResult :=
  if odds.length < 2 then .error "Need at least 2 legs"
  else
    match parseAllLegs odds with
    | none => .error "Invalid odds format"
    | some decimals =>
        let combined := decimals.foldl (· * ·) 1
        .ok { legs := odds.length
              combined_odds := decimal_to_american combined
              combined_decimal := pyRoundTo combined 3
              implied_prob := pyRoundTo (1 / combined * 100) 1
              payout_per_100 := pyRoundTo ((combined - 1) * 100) 2 }

/-! ## Python value / dict model for the odds-merge pipeline

The game records, odds maps and the sticky store are plain Python dicts.
They are modelled as association lists of `String` keys and `Val` values;
with duplicate keys the LAST binding wins, so that the dict-literal
override order of `{**base, "k": v, **opening}` is modelled by list
concatenation. -/

/-- A Python JSON-ish value as it appears in the game/odds dicts. -/
inductive Val where
  | str : String → Val
  | num : ℚ → Val
  | null : Val
  | dict : List (String × Val) → Val
deriving Repr

abbrev Dict := List (String × Val)

/-- Last-occurrence lookup in an association list (Python dict semantics
for our append-to-override encoding). -/
def alGet {α : Type} : List (String × α) → String → Option α
  | [], _ => none
  | (k, v) :: rest, key =>
      match alGet rest key with
      | some w => some w
      | none => if k = key then some v else none

/-- `d[key] = v` / dict-literal override, encoded by appending. -/
def alSet {α : Type} (l : List (String × α)) (k : String) (v : α) :
    List (String × α) :=
  l ++ [(k, v)]

/-- `key in d`. -/
def dmem (d : Dict) (key : String) : Bool := (alGet d key).isSome

/-- Python `d.get(key)`: `None` when the key is absent. -/
def dget (d : Dict) (key : String) : Val := (alGet d key).getD .null

/-- Python truthiness of the values occurring in this pipeline: empty
strings, zero, `None` and empty dicts are falsy. -/
def truthy : Val → Bool
  | .str s => !(s == "")
  | .num q => !(q == 0)
  | .null => false
  | .dict l => !l.isEmpty

/-- Python `a or b` on two values. -/
def pyOr (a b : Val) : Val := if truthy a then a else b

/-- Python `k.startswith(pre)`. -/
def pyStartsWith (k pre : String) : Bool := pre.data.isPrefixOf k.data

/-! ### The sticky odds store (main.py:439-474) -/

/-- `_sticky_odds`: date string → game id → odds dict. -/
abbrev Store := List (String × List (String × Dict))

/-- `_get_sticky` (main.py:445-447):
`_sticky_odds.get(date_str, {}).get(game_id, {})`. -/
def _get_sticky (st : Store) (date_str game_id : String) : Dict :=
  (alGet ((alGet st date_str).getD []) game_id).getD []

def _OPENING_FIELDS : List String :=
  ["spread", "ou", "homeOdds", "awayOdds", "homeSpreadOdds", "awaySpreadOdds"]

/-- Loop body of the opening-snapshot pass of `_set_sticky` on first write
(`if not existing`, main.py:461-464). -/
def snapStepNew (od : Dict) (f : String) : Dict :=
  if truthy (dget od f) then alSet od ("opening_" ++ f) (dget od f) else od

/-- Loop body of the opening-snapshot pass of `_set_sticky` on a later
write (`else`, main.py:465-471). -/
def snapStepOld (existing od : Dict) (f : String) : Dict :=
  let ok := "opening_" ++ f
  if dmem existing ok then alSet od ok (dget existing ok)
  else if truthy (dget od f) && !(dmem od ok) then alSet od ok (dget od f)
  else od

/-- `_set_sticky` (main.py:453-474); the trailing `_save_odds_to_firestore`
call (pure I/O) is outside the model. -/
def _set_sticky (st : Store) (date_str game_id : String) (odds : Dict) :
    Store :=
  let existing := _get_sticky st date_str game_id
  let odds' :=
    if existing.isEmpty then _OPENING_FIELDS.foldl snapStepNew odds
    else _OPENING_FIELDS.foldl (snapStepOld existing) odds
  alSet st date_str (alSet ((alGet st date_str).getD []) game_id odds')

/-! ### `_merge_odds` (main.py:1328-1401) -/

/-- `re.sub(r'-\d{8}$', '', gid)` (main.py:1340): strip a trailing
"-YYYYMMDD" suffix (a '-' followed by exactly eight digits at the end). -/
def stripDateSuffix (gid : String) : String :=
  let cs := gid.data
  match cs.drop (cs.length - 9) with
  | '-' :: ds =>
      if ds.length = 8 && ds.all Char.isDigit then
        String.mk (cs.take (cs.length - 9))
      else gid
  | _ => gid

/-- `g["id"]` (main.py:1338): games flowing through the pipeline always
carry a string id (ESPN fetch and the mock list both set one). -/
def gameId (g : Dict) : String :=
  match dget g "id" with
  | .str s => s
  | _ => ""

/-- `ds = date_str or datetime.now(timezone.utc).strftime("%Y%m%d")`
(main.py:1341); `today` stands for the formatted current UTC date. -/
def resolveDate (date_str : Option String) (today : String) : String :=
  match date_str with
  | some s => if s = "" then today else s
  | none => today

/-- Python `a or b` where `a` is a dict lookup (`None` when absent) and an
empty dict is falsy. -/
def orElseDict (a : Option Dict) (b : Dict) : Dict :=
  match a with
  | some d => if d.isEmpty then b else d
  | none => b

/-- `o = odds_map.get(base_id) or odds_map.get(gid) or {}` (main.py:1342). -/
def oddsEntryOf (odds_map : List (String × Dict)) (gid : String) : Dict :=
  orElseDict (alGet odds_map (stripDateSuffix gid))
    (orElseDict (alGet odds_map gid) [])

/-- `sticky = _get_sticky(ds, base_id) or _get_sticky(ds, gid)`
(main.py:1343). -/
def stickyOf (st : Store) (ds gid : String) : Dict :=
  let s1 := _get_sticky st ds (stripDateSuffix gid)
  if s1.isEmpty then _get_sticky st ds gid else s1

/-- The win-probability block of `_merge_odds` (main.py:1359-1375): implied
probabilities from the two moneylines when both are truthy and parse (any
exception is swallowed, leaving 50/50), then the ESPN BPI predictor
fallback when the pair is still exactly 50/50. -/
def winProbs (g : Dict) (homeOdds awayOdds : Val) : ℚ × ℚ :=
  let viaOdds : Option (ℚ × ℚ) :=
    if truthy homeOdds && truthy awayOdds then
      match homeOdds, awayOdds with
      | .str hs, .str has =>
          match american_to_decimal hs, american_to_decimal has with
          | some hd, some ad =>
              let total := 1/hd + 1/ad
              some (pyRoundTo ((1/hd) / total * 100) 1,
                    pyRoundTo ((1/ad) / total * 100) 1)
          | _, _ => none
      | _, _ => none
    else none
  let p0 := viaOdds.getD (50, 50)
  if p0.1 = 50 ∧ p0.2 = 50 then
    match dget g "espn_home_win_prob" with
    | .num p => (pyRoundTo p 1, pyRoundTo (100 - p) 1)
    | _ => p0
  else p0

/-- The opening-lines block (main.py:1381-1385), as the association list
the loop builds: one `opening_*` pair per field whose
`espn_opening_* or sticky.opening_*` value is truthy, in field order. -/
def openingPairs (g : Dict) (sticky : Dict) : Dict :=
  (_OPENING_FIELDS.map (fun f =>
      ("opening_" ++ f,
        pyOr (dget g ("espn_" ++ ("opening_" ++ f)))
          (dget sticky ("opening_" ++ f))))).filter
    (fun kv => truthy kv.2)

/-- The dict comprehension passed to `_set_sticky` (main.py:1354-1357):
the six market pairs, keeping only truthy values. -/
def marketPairs (spread ou homeOdds awayOdds homeSpreadOdds awaySpreadOdds :
    Val) : Dict :=
  ([("spread", spread), ("ou", ou), ("homeOdds", homeOdds),
    ("awayOdds", awayOdds), ("homeSpreadOdds", homeSpreadOdds),
    ("awaySpreadOdds", awaySpreadOdds)]).filter (fun kv => truthy kv.2)

/-- One iteration of the `for g in espn_games` loop of `_merge_odds`
(main.py:1337-1400).  Returns the input dict as the loop leaves it (it is
only read, via `g.get`), the freshly built result record, and the sticky
store after the conditional `_set_sticky`. -/
def mergeStep (odds_map : List (String × Dict)) (date_str : Option String)
    (today : String) (st : Store) (g : Dict) : Dict × Dict × Store :=
  let gid := gameId g
  let base_id := stripDateSuffix gid
  let ds := resolveDate date_str today
  let o := oddsEntryOf odds_map gid
  let sticky := stickyOf st ds gid
  let spread :=
    pyOr (dget g "espn_spread") (pyOr (dget o "spread") (dget sticky "spread"))
  let ou :=
    pyOr (dget g "espn_ou") (pyOr (dget o "ou") (dget sticky "ou"))
  let homeOdds :=
    pyOr (dget g "espn_homeOdds")
      (pyOr (dget o "homeOdds") (dget sticky "homeOdds"))
  let awayOdds :=
    pyOr (dget g "espn_awayOdds")
      (pyOr (dget o "awayOdds") (dget sticky "awayOdds"))
  let homeSpreadOdds :=
    pyOr (dget g "espn_homeSpreadOdds")
      (pyOr (dget o "homeSpreadOdds") (dget sticky "homeSpreadOdds"))
  let awaySpreadOdds :=
    pyOr (dget g "espn_awaySpreadOdds")
      (pyOr (dget o "awaySpreadOdds") (dget sticky "awaySpreadOdds"))
  let st' :=
    if truthy spread || truthy ou || truthy homeOdds then
      _set_sticky st ds base_id
        (marketPairs spread ou homeOdds awayOdds homeSpreadOdds awaySpreadOdds)
    else st
  let probs := winProbs g homeOdds awayOdds
  let base := g.filter (fun kv => !(pyStartsWith kv.1 "espn_"))
  let record :=
    base ++
    [("homeWinProb", Val.num probs.1), ("awayWinProb", Val.num probs.2),
     ("homeOdds", homeOdds), ("awayOdds", awayOdds),
     ("homeSpreadOdds", homeSpreadOdds), ("awaySpreadOdds", awaySpreadOdds),
     ("spread", spread), ("ou", ou), ("ouDir", Val.null)] ++
    openingPairs g sticky ++
    [("analysis",
       Val.dict [("best_bet", Val.null), ("ou", Val.null),
                 ("props", Val.null)])]
  (g, record, st')

/-- The `for g in espn_games` loop, threading the sticky store. -/
def mergeLoop (odds_map : List (String × Dict)) (date_str : Option String)
    (today : String) : Store → List Dict → List Dict × List Dict × Store
  | st, [] => ([], [], st)
  | st, g :: rest =>
      let s := mergeStep odds_map date_str today st g
      let t := mergeLoop odds_map date_str today s.2.2 rest
      (s.1 :: t.1, s.2.1 :: t.2.1, t.2.2)

/-- `_merge_odds` (main.py:1328-1401): returns the input game list as the
loop leaves it, the built result list, and the final sticky store. -/
def _merge_odds (espn_games : List Dict) (odds_map : List (String × Dict))
    (date_str : Option String) (today : String) (st : Store) :
    List Dict × List Dict × Store :=
  mergeLoop odds_map date_str today st espn_games

/-! ### The games endpoint (main.py:1430-1484) -/

/-- `MOCK_GAMES` (main.py:1263-1287), the hard-coded fallback game list. -/
def MOCK_GAMES : List Dict :=
  [[("id", .str "nyk-det"), ("status", .str "live"), ("quarter", .num 4),
    ("clock", .str "7:21"), ("home", .str "NYK"), ("away", .str "DET"),
    ("homeName", .str "Knicks"), ("awayName", .str "Pistons"),
    ("homeScore", .num 88), ("awayScore", .num 104),
    ("homeWinProb", .num 18), ("awayWinProb", .num 82),
    ("homeOdds", .str "+480"), ("awayOdds", .str "-700"),
    ("ou", .str "202.5"), ("ouDir", .str "OVER"),
    ("spread", .str "DET -16.5"),
    ("analysis", .dict
      [("best_bet", .str "DET ML (-700) — only for those already in. Live cover at -16.5 is where the value is."),
       ("ou", .str "OVER 202.5 — both teams still pushing, averaging 24+ pts per remaining Q4 minute."),
       ("props", .str "Cade Cunningham has 28 pts, 7 ast with 7:21 left. Hammering his points OVER for any remaining live props.")])],
   [("id", .str "gsw-bos"), ("status", .str "upcoming"),
    ("home", .str "GSW"), ("away", .str "BOS"),
    ("homeName", .str "Warriors"), ("awayName", .str "Celtics"),
    ("time", .str "7:00 PM PT"), ("homeWinProb", .num (87/2)),
    ("awayWinProb", .num (113/2)), ("homeOdds", .str "+110"),
    ("awayOdds", .str "-130"), ("spread", .str "BOS -2.5"),
    ("ou", .str "219.5"), ("injuryAlert", .str "⚠️ Tatum OUT (Achilles)"),
    ("analysis", .dict
      [("best_bet", .str "GSW +2.5 ATS — massive line move after Tatum scratched. Lean GSW to cover."),
       ("ou", .str "UNDER 219.5 — Without Tatum, BOS offense loses its ceiling. Expect a slower game."),
       ("props", .str "Jaylen Brown OVER 30.5 pts — inherits full usage with Tatum out.")])]]

/-- `_full_espn_refresh` (main.py:1430-1455), modelled on its data path:
the Firestore sticky sync, the summary enrichment and the persistence and
pick-scoring calls are I/O outside the model.  `espnGames` stands for the
(enriched) result of `fetch_espn_games`; with no games the function
returns `[]` before merging, otherwise it returns
`_merge_odds(games, {}, date_str)`.  The final sticky store is carried
alongside. -/
def _full_espn_refresh (espnGames : List Dict) (date_str : String)
    (st : Store) : List Dict × Store :=
  if espnGames.isEmpty then ([], st)
  else
    let m := _merge_odds espnGames [] (some date_str) date_str st
    (m.2.1, m.2.2)

/-- `get_games` (main.py:1458-1484).  `cached_games` stands for
`_load_games_from_firestore(date_str)`, with `[]` modelling both `None`
(not found / store unavailable) and an empty cache — the source never
returns a non-`None` empty list and both are falsy.  On a cache hit the
refresh runs as a background task after the response is sent, so it does
not affect the returned value.  Returns the games list and the `source`
tag of the JSON response. -/
def get_games (cached_games : List Dict) (espnGames : List Dict)
    (date_str : String) (st : Store) : List Dict × String :=
  if !cached_games.isEmpty then (cached_games, "live")
  else
    let merged := (_full_espn_refresh espnGames date_str st).1
    if merged.isEmpty then (MOCK_GAMES, "mock")
    else (merged, "live")

/-! ### `parse_gemini_analysis` scores (main.py:1209-1259)

`extract_score` runs
`re.search(rf'{marker}:\s*([0-9]+(?:\.[0-9]+)?)', text, re.IGNORECASE)`
and clamps/rounds the matched number.  The regex search is embedded as a
character scanner: at each position try to match the marker and the colon
case-insensitively, then `\s*`, then a mandatory digit run with an
optional fractional part (a '.' not followed by a digit is not consumed,
as the regex backtracks out of the optional group). -/

/-- Python `\s` (ASCII range as relevant here). -/
def isPySpace (c : Char) : Bool :=
  c = ' ' || c = '\t' || c = '\n' || c = '\r' ||
    c = Char.ofNat 11 || c = Char.ofNat 12

/-- Case-insensitive literal prefix match, returning the remainder. -/
def ciPrefix : List Char → List Char → Option (List Char)
  | [], cs => some cs
  | _ :: _, [] => none
  | p :: ps, c :: cs => if p.toLower = c.toLower then ciPrefix ps cs else none

/-- `[0-9]+(?:\.[0-9]+)?` at the head of the input, as a rational. -/
def parseNumAt (cs : List Char) : Option ℚ :=
  let ip := cs.takeWhile Char.isDigit
  let rest := cs.dropWhile Char.isDigit
  if ip.isEmpty then none
  else
    match rest with
    | '.' :: rest2 =>
        let fp := rest2.takeWhile Char.isDigit
        if fp.isEmpty then some (digitsVal ip)
        else some ((digitsVal ip : ℚ) + (digitsVal fp : ℚ) / 10 ^ fp.length)
    | _ => some (digitsVal ip)

/-- `re.search` for `pat` followed by `\s*` and a number: try each start
position left to right. -/
def scanFor (pat : List Char) : List Char → Option ℚ
  | [] => none
  | c :: rest =>
      match ciPrefix pat (c :: rest) with
      | some rem =>
          match parseNumAt (rem.dropWhile isPySpace) with
          | some q => some q
          | none => scanFor pat rest
      | none => scanFor pat rest

/-- `extract_score` (main.py:1219-1226): the first marker match's number,
clamped to [1.0, 5.0] and rounded to one decimal.  (`float()` on the
regex group never raises, so the `except ValueError` branch is dead.) -/
def extract_score (text marker : String) : Option ℚ :=
  (scanFor (marker ++ ":").data text.data).map
    (fun x => pyRoundTo (min 5 (max 1 x)) 1)

/-- The two Dubl-score fields of the dict built by `parse_gemini_analysis`
(main.py:1241-1259); the remaining fields (freeform text extraction via
`extract`, prop status, lines) are not needed by any claim and are outside
the model. -/
structure GeminiScores where
  dubl_score_bet : Option ℚ
  dubl_score_ou : Option ℚ

/-- `parse_gemini_analysis` (main.py:1209-1259), restricted to its
`dubl_score_bet` / `dubl_score_ou` fields. -/
def parse_gemini_analysis (text : String) : GeminiScores :=
  { dubl_score_bet := extract_score text "DUBL_SCORE_BET"
    dubl_score_ou := extract_score text "DUBL_SCORE_OU" }

/-! ### Spec-side definition for claim C5

The claim's own words — "the first non-null, non-empty value in the fixed
priority order …, and the field is null when all three sources lack it" —
as a function, to be compared with what the merge computes. -/

def specFirstNonEmpty (vs : List Val) : Val := (vs.find? truthy).getD .null

/-- First-some choice, used to state how last-wins lookup distributes over
an append. -/
def olOr {α : Type} : Option α → Option α → Option α
  | some v, _ => some v
  | none, b => b

/-! ## Basic lemmas -/

theorem pyRound_intCast (n : ℤ) : pyRound (n : ℚ) = n := by
  simp [pyRound]

theorem pyRound_le (q : ℚ) : (pyRound q : ℚ) ≤ q + 1/2 := by
  have h1 : (⌊q⌋ : ℚ) ≤ q := Int.floor_le q
  have h2 : q < ⌊q⌋ + 1 := Int.lt_floor_add_one q
  unfold pyRound
  split_ifs <;> push_cast <;> linarith

theorem le_pyRound (q : ℚ) : q - 1/2 ≤ (pyRound q : ℚ) := by
  have h1 : (⌊q⌋ : ℚ) ≤ q := Int.floor_le q
  have h2 : q < ⌊q⌋ + 1 := Int.lt_floor_add_one q
  unfold pyRound
  split_ifs <;> push_cast <;> linarith

theorem parseAllLegs_eq_none {odds : List String} {o : String}
    (ho : o ∈ odds) (hbad : american_to_decimal o = none) :
    parseAllLegs odds = none := by
  induction odds with
  | nil => cases ho
  | cons a rest ih =>
      rcases List.mem_cons.mp ho with h | h
      · subst h; simp [parseAllLegs, hbad]
      · unfold parseAllLegs
        rw [ih h]
        cases american_to_decimal a <;> rfl

theorem parseAllLegs_eq_some {odds : List String} {ds : List ℚ}
    (h : parseAllLegs odds = some ds) :
    ∀ i : ℕ, ∀ hi : i < odds.length,
      ∃ hj : i < ds.length,
        american_to_decimal (odds.get ⟨i, hi⟩) = some (ds.get ⟨i, hj⟩) := by
  induction odds generalizing ds with
  | nil => intro i hi; cases hi
  | cons a rest ih =>
      intro i hi
      unfold parseAllLegs at h
      cases ha : american_to_decimal a with
      | none => rw [ha] at h; cases h
      | some d =>
          rw [ha] at h
          cases hr : parseAllLegs rest with
          | none => rw [hr] at h; cases h
          | some ds' =>
              rw [hr] at h
              cases h
              cases i with
              | zero => exact ⟨by simp, ha⟩
              | succ n =>
                  obtain ⟨hj, he⟩ := ih hr n (Nat.lt_of_succ_lt_succ hi)
                  exact ⟨Nat.succ_lt_succ hj, he⟩

/-! ## Claims C1-C4: odds arithmetic and the parlay endpoint -/

/-- C1 (counterexample).  The claim fails at the string "-100": it denotes
the signed integer -100 with |−100| ≥ 100, yet
`decimal_to_american(american_to_decimal("-100"))` is the string "+100",
which denotes the signed integer +100.  The gap of 200 is a sign flip at
the even-money boundary, not rounding error. -/
theorem roundtrip_cex_neg100 :
    pyParseInt "-100" = some (-100) ∧ (100:ℤ) ≤ |(-100:ℤ)| ∧
    (american_to_decimal "-100").map decimal_to_american = some 100 := by
  refine ⟨by decide, by decide, ?_⟩
  have hp : pyParseInt "-100" = some (-100) := by decide
  unfold american_to_decimal
  rw [hp]
  dsimp only
  norm_num
  unfold decimal_to_american
  norm_num
  have h1 := pyRound_intCast 100
  have h2 : (((100:ℤ):ℚ)) = (100:ℚ) := by norm_num
  rw [h2] at h1
  convert h1 using 2

/-- C1 (amended).  For every American odds string s denoting an integer o
with |o| ≥ 100 — except the even-money string "-100", whose round trip is
"+100" — `decimal_to_american (american_to_decimal s)` denotes exactly the
signed integer o: in exact (rational) arithmetic the round trip is not
merely within rounding error but exact. -/
theorem american_decimal_roundtrip (s : String) (o : ℤ)
    (hp : pyParseInt s = some o) (hmag : 100 ≤ |o|) (hne : o ≠ -100) :
    (american_to_decimal s).map decimal_to_american = some o := by
  have ho : o ≠ 0 := by
    intro h; rw [h] at hmag; norm_num at hmag
  unfold american_to_decimal
  rw [hp]
  dsimp only
  rw [if_neg ho]
  simp only [Option.map_some']
  by_cases hpos : o > 0
  · rw [if_pos hpos]
    have h100 : (100 : ℚ) ≤ (o : ℚ) := by
      have : (100:ℤ) ≤ o := by rw [abs_of_pos hpos] at hmag; exact hmag
      exact_mod_cast this
    unfold decimal_to_american
    rw [if_pos (by linarith)]
    have : ((o:ℚ) / 100 + 1 - 1) * 100 = ((o : ℤ) : ℚ) := by field_simp
    rw [this, pyRound_intCast]
  · rw [if_neg hpos]
    push_neg at hpos
    have hneg : o < 0 := lt_of_le_of_ne hpos ho
    have habs : |o| = -o := abs_of_neg hneg
    have h101 : (101 : ℤ) ≤ -o := by
      rw [habs] at hmag
      rcases lt_or_eq_of_le hmag with h | h
      · omega
      · exfalso; apply hne; omega
    have habsq : ((|o| : ℤ) : ℚ) = -(o : ℚ) := by
      rw [habs]; push_cast; ring
    rw [habsq]
    have hoq : (101 : ℚ) ≤ -(o : ℚ) := by exact_mod_cast h101
    unfold decimal_to_american
    rw [if_neg (by
      intro hge
      have hlt : (100 : ℚ) / (-(o:ℚ)) < 1 := by
        rw [div_lt_one (by linarith)]; linarith
      linarith)]
    have : -100 / (100 / (-(o:ℚ)) + 1 - 1) = ((o : ℤ) : ℚ) := by
      field_simp
    rw [this, pyRound_intCast]

/-- Witness for `american_decimal_roundtrip` at the concrete string "-110". -/
theorem american_decimal_roundtrip_witness :
    pyParseInt "-110" = some (-110) ∧ (100:ℤ) ≤ |(-110:ℤ)| ∧ (-110:ℤ) ≠ -100 ∧
    (american_to_decimal "-110").map decimal_to_american = some (-110) :=
  ⟨by decide, by decide, by decide,
    american_decimal_roundtrip "-110" (-110) (by decide) (by decide) (by decide)⟩

/-- C2.  For every request whose odds list has at least 2 legs, each leg
parsing to decimal odds, `calculate_parlay` returns `combined_decimal` equal
to the product of the per-leg decimal odds rounded to 3 decimals,
`implied_prob` equal to the implied probability `1/combined` as a percentage
rounded to 1 decimal, `payout_per_100` equal to `(combined − 1) × 100`
rounded to 2 decimals, `legs` equal to the number of odds supplied, and
`combined_odds` equal to `decimal_to_american` of the (unrounded) product. -/
theorem calculate_parlay_correct (odds : List String) (ds : List ℚ)
    (hlen : 2 ≤ odds.length) (hparse : parseAllLegs odds = some ds) :
    calculate_parlay odds = .ok
      { legs := odds.length
        combined_odds := decimal_to_american ds.prod
        combined_decimal := pyRoundTo ds.prod 3
        implied_prob := pyRoundTo (1 / ds.prod * 100) 1
        payout_per_100 := pyRoundTo ((ds.prod - 1) * 100) 2 } := by
  unfold calculate_parlay
  rw [if_neg (by omega), hparse]
  dsimp only
  rw [← List.prod_eq_foldl]

/-- Witness for `calculate_parlay_correct` on the two-leg parlay
["-110", "+150"], whose decimal odds are 21/11 and 5/2. -/
theorem calculate_parlay_correct_witness :
    2 ≤ (["-110", "+150"] : List String).length ∧
    parseAllLegs ["-110", "+150"] = some [21/11, 5/2] ∧
    calculate_parlay ["-110", "+150"] = .ok
      { legs := 2
        combined_odds := decimal_to_american (([21/11, 5/2] : List ℚ)).prod
        combined_decimal := pyRoundTo (([21/11, 5/2] : List ℚ)).prod 3
        implied_prob := pyRoundTo (1 / (([21/11, 5/2] : List ℚ)).prod * 100) 1
        payout_per_100 :=
          pyRoundTo (((([21/11, 5/2] : List ℚ)).prod - 1) * 100) 2 } := by
  have h1 : american_to_decimal "-110" = some (21/11) := by
    have hp : pyParseInt "-110" = some (-110) := by decide
    unfold american_to_decimal
    rw [hp]; dsimp only; norm_num
  have h2 : american_to_decimal "+150" = some (5/2) := by
    have hp : pyParseInt "+150" = some 150 := by decide
    unfold american_to_decimal
    rw [hp]; dsimp only; norm_num
  have hparse : parseAllLegs ["-110", "+150"] = some [21/11, 5/2] := by
    unfold parseAllLegs parseAllLegs parseAllLegs
    rw [h1, h2]
  exact ⟨by decide, hparse, calculate_parlay_correct _ _ (by decide) hparse⟩

/-- C3.  For every request whose odds list has fewer than 2 elements,
`calculate_parlay` raises HTTP 400 with detail "Need at least 2 legs" and
returns no payout result. -/
theorem calculate_parlay_rejects_short (odds : List String)
    (h : odds.length < 2) :
    calculate_parlay odds = .error "Need at least 2 legs" := by
  unfold calculate_parlay
  rw [if_pos h]

/-- Witness for `calculate_parlay_rejects_short` on the one-leg request. -/
theorem calculate_parlay_rejects_short_witness :
    (["+100"] : List String).length < 2 ∧
    calculate_parlay ["+100"] = .error "Need at least 2 legs" :=
  ⟨by decide, calculate_parlay_rejects_short _ (by decide)⟩

/-- C4.  For every request with at least 2 legs where some leg is not a
valid American odds string (its conversion to decimal odds fails, e.g. the
string "0"), `calculate_parlay` raises HTTP 400 with detail
"Invalid odds format" rather than propagating the exception. -/
theorem calculate_parlay_invalid_leg (odds : List String)
    (hlen : 2 ≤ odds.length)
    (hbad : ∃ o ∈ odds, american_to_decimal o = none) :
    calculate_parlay odds = .error "Invalid odds format" := by
  obtain ⟨o, ho, hnone⟩ := hbad
  unfold calculate_parlay
  rw [if_neg (by omega), parseAllLegs_eq_none ho hnone]

/-! ## Association-list lemmas -/

theorem alGet_append {α : Type} (a b : List (String × α)) (k : String) :
    alGet (a ++ b) k = olOr (alGet b k) (alGet a k) := by
  induction a with
  | nil => cases h : alGet b k <;> simp [olOr, h, alGet]
  | cons kv rest ih =>
      obtain ⟨k', v⟩ := kv
      simp only [List.cons_append, alGet, List.append_eq]
      rw [ih]
      cases hb : alGet b k <;> cases hr : alGet rest k <;> simp [olOr]

theorem alGet_eq_none_of_keys {α : Type} {l : List (String × α)} {k : String}
    (h : ∀ kv ∈ l, kv.1 ≠ k) : alGet l k = none := by
  induction l with
  | nil => rfl
  | cons kv rest ih =>
      simp only [alGet]
      rw [ih (fun x hx => h x (List.mem_cons_of_mem _ hx))]
      simp [h kv (List.mem_cons_self _ _)]

theorem alGet_alSet_same {α : Type} (l : List (String × α)) (k : String)
    (v : α) : alGet (alSet l k v) k = some v := by
  unfold alSet
  rw [alGet_append]
  simp [alGet, olOr]

theorem alGet_alSet_ne {α : Type} (l : List (String × α)) (k' k : String)
    (v : α) (h : k' ≠ k) : alGet (alSet l k' v) k = alGet l k := by
  unfold alSet
  rw [alGet_append]
  simp [alGet, h]
  cases alGet l k <;> simp [olOr]

theorem alGet_ne_nil {α : Type} {l : List (String × α)} {k : String} {v : α}
    (h : alGet l k = some v) : l.isEmpty = false := by
  cases l with
  | nil => cases h
  | cons x xs => rfl

/-! ## Merge-record lemmas -/

theorem openingPairs_key_ne (g sticky : Dict) (f : String)
    (hf : f ∈ _OPENING_FIELDS) :
    ∀ kv ∈ openingPairs g sticky, kv.1 ≠ f := by
  intro kv hkv
  obtain ⟨hkv', _⟩ := List.mem_filter.mp hkv
  obtain ⟨f', hf', rfl⟩ := List.mem_map.mp hkv'
  show ("opening_" ++ f') ≠ f
  fin_cases hf <;> fin_cases hf' <;> decide

/-- The six market fields of the record built by one merge iteration are
the three-way `or`-chains computed at main.py:1345-1350. -/
theorem record_market_get (om : List (String × Dict)) (dstr : Option String)
    (t : String) (st : Store) (g : Dict) (f : String)
    (hf : f ∈ _OPENING_FIELDS) :
    dget (mergeStep om dstr t st g).2.1 f =
      pyOr (dget g ("espn_" ++ f))
        (pyOr (dget (oddsEntryOf om (gameId g)) f)
          (dget (stickyOf st (resolveDate dstr t) (gameId g)) f)) := by
  have hop := openingPairs_key_ne g
    (stickyOf st (resolveDate dstr t) (gameId g)) f hf
  have hopn := alGet_eq_none_of_keys hop
  unfold mergeStep
  dsimp only
  unfold dget
  rw [alGet_append, alGet_append, alGet_append, hopn]
  fin_cases hf <;> rfl

theorem mergeLoop_records_length (om : List (String × Dict))
    (dstr : Option String) (t : String) (st : Store) (gs : List Dict) :
    (mergeLoop om dstr t st gs).2.1.length = gs.length := by
  induction gs generalizing st with
  | nil => rfl
  | cons g rest ih => simp [mergeLoop, ih]

theorem mergeLoop_get (om : List (String × Dict)) (dstr : Option String)
    (t : String) (gs : List Dict) (st : Store) (i : ℕ) (hi : i < gs.length)
    (hi' : i < (mergeLoop om dstr t st gs).2.1.length) :
    (mergeLoop om dstr t st gs).2.1.get ⟨i, hi'⟩ =
      (mergeStep om dstr t (mergeLoop om dstr t st (gs.take i)).2.2
        (gs.get ⟨i, hi⟩)).2.1 := by
  induction gs generalizing st i with
  | nil => cases hi
  | cons g rest ih =>
      cases i with
      | zero => rfl
      | succ n =>
          simp only [mergeLoop, List.get_cons_succ, List.take_succ_cons]
          exact ih _ _ (Nat.lt_of_succ_lt_succ hi) _

theorem merge_records_length (espn_games : List Dict)
    (om : List (String × Dict)) (dstr : Option String) (t : String)
    (st : Store) :
    (_merge_odds espn_games om dstr t st).2.1.length = espn_games.length :=
  mergeLoop_records_length om dstr t st espn_games

theorem merge_records_get (espn_games : List Dict)
    (om : List (String × Dict)) (dstr : Option String) (t : String)
    (st : Store) (i : ℕ) (hi : i < espn_games.length)
    (hi' : i < (_merge_odds espn_games om dstr t st).2.1.length) :
    (_merge_odds espn_games om dstr t st).2.1.get ⟨i, hi'⟩ =
      (mergeStep om dstr t
        (_merge_odds (espn_games.take i) om dstr t st).2.2
        (espn_games.get ⟨i, hi⟩)).2.1 :=
  mergeLoop_get om dstr t espn_games st i hi hi'

/-- C5.  For the i-th game record produced by `_merge_odds`, each odds
market field equals the first non-null, non-empty value in the fixed
priority order — the game's embedded `espn_*` value, else the `odds_map`
entry looked up under the game id with any trailing `-YYYYMMDD` suffix
stripped (or the full id), else the sticky entry consulted for that date
and id (the store as it stands when that game is processed) — and is null
when all three sources lack a value.  The hypothesis `hwf` records that
the sticky entry does not bind the field to a falsy non-null value (the
store only ever receives truthy values, filtered at main.py:1354-1357). -/
theorem merge_priority (espn_games : List Dict)
    (om : List (String × Dict)) (dstr : Option String) (t : String)
    (st : Store) (i : ℕ) (hi : i < espn_games.length) (f : String)
    (hf : f ∈ _OPENING_FIELDS)
    (hwf : dget (stickyOf
        ((_merge_odds (espn_games.take i) om dstr t st).2.2)
        (resolveDate dstr t) (gameId (espn_games.get ⟨i, hi⟩))) f = Val.null ∨
      truthy (dget (stickyOf
        ((_merge_odds (espn_games.take i) om dstr t st).2.2)
        (resolveDate dstr t) (gameId (espn_games.get ⟨i, hi⟩))) f) = true) :
    ∃ hi' : i < (_merge_odds espn_games om dstr t st).2.1.length,
      dget ((_merge_odds espn_games om dstr t st).2.1.get ⟨i, hi'⟩) f =
        specFirstNonEmpty
          [dget (espn_games.get ⟨i, hi⟩) ("espn_" ++ f),
           dget (oddsEntryOf om (gameId (espn_games.get ⟨i, hi⟩))) f,
           dget (stickyOf ((_merge_odds (espn_games.take i) om dstr t st).2.2)
             (resolveDate dstr t) (gameId (espn_games.get ⟨i, hi⟩))) f] := by
  have hlen : i < (_merge_odds espn_games om dstr t st).2.1.length := by
    rw [merge_records_length]
    exact hi
  refine ⟨hlen, ?_⟩
  rw [merge_records_get espn_games om dstr t st i hi]
  rw [record_market_get om dstr t _ _ f hf]
  set e := dget (espn_games.get ⟨i, hi⟩) ("espn_" ++ f) with he
  set ov := dget (oddsEntryOf om (gameId (espn_games.get ⟨i, hi⟩))) f with ho
  set sv := dget (stickyOf ((_merge_odds (espn_games.take i) om dstr t st).2.2)
      (resolveDate dstr t) (gameId (espn_games.get ⟨i, hi⟩))) f with hs
  unfold specFirstNonEmpty pyOr
  cases hte : truthy e <;> cases hto : truthy ov <;>
    simp [List.find?, hte, hto]
  rcases hwf with h | h
  · simp [h, truthy]
  · simp [h]

/-- Witness for `merge_priority`: a one-game list whose game carries an
embedded ESPN spread, an empty odds map and an empty sticky store. -/
theorem merge_priority_witness :
    (0 : ℕ) < ([[("id", Val.str "bos-lal"),
        ("espn_spread", Val.str "BOS -3.5")]] : List Dict).length ∧
    ("spread" : String) ∈ _OPENING_FIELDS ∧
    ∃ hi' : (0 : ℕ) <
        (_merge_odds [[("id", Val.str "bos-lal"),
          ("espn_spread", Val.str "BOS -3.5")]] [] (some "20260110")
          "20260110" []).2.1.length,
      dget ((_merge_odds [[("id", Val.str "bos-lal"),
          ("espn_spread", Val.str "BOS -3.5")]] [] (some "20260110")
          "20260110" []).2.1.get ⟨0, hi'⟩) "spread" =
        specFirstNonEmpty
          [dget [("id", Val.str "bos-lal"),
             ("espn_spread", Val.str "BOS -3.5")] ("espn_" ++ "spread"),
           dget (oddsEntryOf [] (gameId [("id", Val.str "bos-lal"),
             ("espn_spread", Val.str "BOS -3.5")])) "spread",
           dget (stickyOf ((_merge_odds (([[("id", Val.str "bos-lal"),
               ("espn_spread", Val.str "BOS -3.5")]] : List Dict).take 0) []
               (some "20260110") "20260110" []).2.2)
             (resolveDate (some "20260110") "20260110")
             (gameId [("id", Val.str "bos-lal"),
               ("espn_spread", Val.str "BOS -3.5")])) "spread"] :=
  ⟨by decide, by decide,
    merge_priority [[("id", Val.str "bos-lal"),
        ("espn_spread", Val.str "BOS -3.5")]] [] (some "20260110")
      "20260110" [] 0 (by decide) "spread" (by decide) (Or.inl rfl)⟩

/-! ## Sticky-store write lemmas -/

theorem snapOld_other (ex od : Dict) (f' : String) (k : String)
    (h : ("opening_" ++ f') ≠ k) :
    alGet (snapStepOld ex od f') k = alGet od k := by
  unfold snapStepOld
  dsimp only
  split_ifs with h1 h2
  · exact alGet_alSet_ne _ _ _ _ h
  · exact alGet_alSet_ne _ _ _ _ h
  · rfl

theorem snapOld_self (ex od : Dict) (f : String) (v : Val)
    (h : alGet ex ("opening_" ++ f) = some v) :
    alGet (snapStepOld ex od f) ("opening_" ++ f) = some v := by
  unfold snapStepOld
  dsimp only
  rw [if_pos (by simp [dmem, h])]
  rw [alGet_alSet_same]
  unfold dget
  rw [h]
  rfl

theorem foldl_snapOld_preserve (ex : Dict) (fs : List String) (od : Dict)
    (k : String) (hk : ∀ f' ∈ fs, ("opening_" ++ f') ≠ k) :
    alGet (fs.foldl (snapStepOld ex) od) k = alGet od k := by
  induction fs generalizing od with
  | nil => rfl
  | cons f0 rest ih =>
      simp only [List.foldl_cons]
      rw [ih _ (fun x hx => hk x (List.mem_cons_of_mem _ hx))]
      exact snapOld_other ex od f0 k (hk f0 (List.mem_cons_self _ _))

theorem foldl_snapOld_opening (ex : Dict) (fs : List String) (od : Dict)
    (k : String) (v : Val) (hex : alGet ex k = some v)
    (hin : ∃ f' ∈ fs, ("opening_" ++ f') = k) :
    alGet (fs.foldl (snapStepOld ex) od) k = some v := by
  induction fs generalizing od with
  | nil => obtain ⟨f', hf', _⟩ := hin; cases hf'
  | cons f0 rest ih =>
      simp only [List.foldl_cons]
      by_cases hrest : ∃ f' ∈ rest, ("opening_" ++ f') = k
      · exact ih _ hrest
      · obtain ⟨f', hf', hk⟩ := hin
        rcases List.mem_cons.mp hf' with h0 | h0
        · subst h0
          push_neg at hrest
          rw [foldl_snapOld_preserve ex rest _ k hrest]
          rw [← hk]
          exact snapOld_self ex od f' v (hk ▸ hex)
        · exact absurd ⟨f', h0, hk⟩ hrest

theorem snapNew_other (od : Dict) (f' : String) (k : String)
    (h : ("opening_" ++ f') ≠ k) :
    alGet (snapStepNew od f') k = alGet od k := by
  unfold snapStepNew
  split_ifs with h1
  · exact alGet_alSet_ne _ _ _ _ h
  · rfl

theorem foldl_snapNew_preserve (fs : List String) (od : Dict)
    (k : String) (hk : ∀ f' ∈ fs, ("opening_" ++ f') ≠ k) :
    alGet (fs.foldl snapStepNew od) k = alGet od k := by
  induction fs generalizing od with
  | nil => rfl
  | cons f0 rest ih =>
      simp only [List.foldl_cons]
      rw [ih _ (fun x hx => hk x (List.mem_cons_of_mem _ hx))]
      exact snapNew_other od f0 k (hk f0 (List.mem_cons_self _ _))

/-- `_set_sticky` never changes the six market keys of the written dict:
only `opening_*` keys are added before the store write. -/
theorem set_sticky_market (st : Store) (ds bid : String) (odds : Dict)
    (f : String) (hpk : ∀ f' ∈ _OPENING_FIELDS, ("opening_" ++ f') ≠ f) :
    alGet (_get_sticky (_set_sticky st ds bid odds) ds bid) f =
      alGet odds f := by
  unfold _set_sticky
  dsimp only
  unfold _get_sticky
  rw [alGet_alSet_same]
  simp only [Option.getD_some]
  rw [alGet_alSet_same]
  simp only [Option.getD_some]
  split_ifs with h1
  · exact foldl_snapNew_preserve _ _ _ hpk
  · exact foldl_snapOld_preserve _ _ _ _ hpk

/-- C6.  Once an `opening_*` snapshot field is recorded in the sticky
store for a date and game id, every subsequent `_set_sticky` call for the
same date and game id preserves that value unchanged: the first-write
snapshot of the opening line is never overwritten by later odds updates,
whatever dict the update carries. -/
theorem opening_preserved (st : Store) (ds gid : String) (odds : Dict)
    (f : String) (hf : f ∈ _OPENING_FIELDS) (v : Val)
    (hprev : alGet (_get_sticky st ds gid) ("opening_" ++ f) = some v) :
    alGet (_get_sticky (_set_sticky st ds gid odds) ds gid)
      ("opening_" ++ f) = some v := by
  have hne := alGet_ne_nil hprev
  unfold _set_sticky
  dsimp only
  rw [if_neg (by simp [hne])]
  unfold _get_sticky
  rw [alGet_alSet_same]
  simp only [Option.getD_some]
  rw [alGet_alSet_same]
  simp only [Option.getD_some]
  exact foldl_snapOld_opening _ _ _ _ _ hprev ⟨f, hf, rfl⟩

/-- Witness for `opening_preserved`: a store holding an opening spread for
bos-lal, updated with a moved line. -/
theorem opening_preserved_witness :
    alGet (_get_sticky
        [("20260110", [("bos-lal", [("opening_spread", Val.str "BOS -3.5")])])]
        "20260110" "bos-lal") ("opening_" ++ "spread") =
      some (Val.str "BOS -3.5") ∧
    alGet (_get_sticky
        (_set_sticky
          [("20260110", [("bos-lal", [("opening_spread", Val.str "BOS -3.5")])])]
          "20260110" "bos-lal" [("spread", Val.str "BOS -7.5")])
        "20260110" "bos-lal") ("opening_" ++ "spread") =
      some (Val.str "BOS -3.5") :=
  ⟨rfl, opening_preserved _ "20260110" "bos-lal" _ "spread" (by decide) _ rfl⟩

/-- C7.  If a market value was written to the sticky store for a date and a
game's (suffix-stripped) id, then a later `_merge_odds` call for that date
in which neither the ESPN embedded field nor the odds map supplies a
truthy value for that market returns the stored sticky value in the output
game record — the pre-game line remains displayable whatever the game's
status. -/
theorem sticky_retention (st₀ : Store) (odds : Dict) (g : Dict)
    (om : List (String × Dict)) (dstr : Option String) (t : String)
    (f : String)
    (hf : f ∈ (["spread", "ou", "homeOdds", "awayOdds"] : List String))
    (v : Val)
    (hv : alGet odds f = some v) (_htv : truthy v = true)
    (hespn : truthy (dget g ("espn_" ++ f)) = false)
    (hodds : truthy (dget (oddsEntryOf om (gameId g)) f) = false) :
    ∃ h0 : 0 < (_merge_odds [g] om dstr t
        (_set_sticky st₀ (resolveDate dstr t) (stripDateSuffix (gameId g))
          odds)).2.1.length,
      dget ((_merge_odds [g] om dstr t
        (_set_sticky st₀ (resolveDate dstr t) (stripDateSuffix (gameId g))
          odds)).2.1.get ⟨0, h0⟩) f = v := by
  have hf6 : f ∈ _OPENING_FIELDS := by fin_cases hf <;> decide
  have hpk : ∀ f' ∈ _OPENING_FIELDS, ("opening_" ++ f') ≠ f := by
    fin_cases hf <;> decide
  have h0 : 0 < (_merge_odds [g] om dstr t
      (_set_sticky st₀ (resolveDate dstr t) (stripDateSuffix (gameId g))
        odds)).2.1.length := by
    rw [merge_records_length]; simp
  refine ⟨h0, ?_⟩
  rw [merge_records_get [g] om dstr t _ 0 (by simp)]
  rw [record_market_get]
  · have hent : alGet (_get_sticky
        (_set_sticky st₀ (resolveDate dstr t) (stripDateSuffix (gameId g)) odds)
        (resolveDate dstr t) (stripDateSuffix (gameId g))) f = some v := by
      rw [set_sticky_market _ _ _ _ _ hpk, hv]
    have hsticky : stickyOf
        ((_merge_odds (([g] : List Dict).take 0) om dstr t
          (_set_sticky st₀ (resolveDate dstr t) (stripDateSuffix (gameId g))
            odds)).2.2)
        (resolveDate dstr t) (gameId ((([g] : List Dict)).get ⟨0, by simp⟩)) =
        _get_sticky (_set_sticky st₀ (resolveDate dstr t)
          (stripDateSuffix (gameId g)) odds)
          (resolveDate dstr t) (stripDateSuffix (gameId g)) := by
      show stickyOf (_set_sticky st₀ (resolveDate dstr t)
          (stripDateSuffix (gameId g)) odds) (resolveDate dstr t) (gameId g) = _
      unfold stickyOf
      rw [if_neg (by simp [alGet_ne_nil hent])]
    rw [hsticky]
    show pyOr (dget g ("espn_" ++ f)) _ = v
    unfold pyOr
    rw [hespn]
    simp only [Bool.false_eq_true, if_false]
    show (if truthy (dget (oddsEntryOf om (gameId g)) f) = true then _ else _)
      = v
    rw [hodds]
    simp only [Bool.false_eq_true, if_false]
    unfold dget
    rw [hent]
    rfl
  · exact hf6

/-- Witness for `sticky_retention`: a spread written to the store for
bos-lal, then a merge with no ESPN value and an empty odds map. -/
theorem sticky_retention_witness :
    ("spread" : String) ∈
      (["spread", "ou", "homeOdds", "awayOdds"] : List String) ∧
    alGet [("spread", Val.str "BOS -3.5")] "spread" =
      some (Val.str "BOS -3.5") ∧
    truthy (Val.str "BOS -3.5") = true ∧
    truthy (dget [("id", Val.str "bos-lal"), ("status", Val.str "live")]
      ("espn_" ++ "spread")) = false ∧
    truthy (dget (oddsEntryOf []
      (gameId [("id", Val.str "bos-lal"), ("status", Val.str "live")]))
      "spread") = false ∧
    ∃ h0 : 0 < (_merge_odds
        [[("id", Val.str "bos-lal"), ("status", Val.str "live")]] []
        (some "20260110") "20260110"
        (_set_sticky [] (resolveDate (some "20260110") "20260110")
          (stripDateSuffix (gameId [("id", Val.str "bos-lal"),
            ("status", Val.str "live")]))
          [("spread", Val.str "BOS -3.5")])).2.1.length,
      dget ((_merge_odds
        [[("id", Val.str "bos-lal"), ("status", Val.str "live")]] []
        (some "20260110") "20260110"
        (_set_sticky [] (resolveDate (some "20260110") "20260110")
          (stripDateSuffix (gameId [("id", Val.str "bos-lal"),
            ("status", Val.str "live")]))
          [("spread", Val.str "BOS -3.5")])).2.1.get ⟨0, h0⟩) "spread" =
        Val.str "BOS -3.5" :=
  ⟨by decide, rfl, rfl, rfl, rfl,
    sticky_retention [] [("spread", Val.str "BOS -3.5")]
      [("id", Val.str "bos-lal"), ("status", Val.str "live")] []
      (some "20260110") "20260110" "spread" (by decide)
      (Val.str "BOS -3.5") rfl rfl rfl rfl⟩

/-! ## The merge's frame property -/

theorem mergeLoop_fst (om : List (String × Dict)) (dstr : Option String)
    (t : String) (gs : List Dict) (st : Store) :
    (mergeLoop om dstr t st gs).1 = gs := by
  induction gs generalizing st with
  | nil => rfl
  | cons g rest ih =>
      simp only [mergeLoop]
      rw [ih]
      rfl

theorem mergeLoop_records_mem (om : List (String × Dict))
    (dstr : Option String) (t : String) (gs : List Dict) (st : Store)
    (r : Dict) (hr : r ∈ (mergeLoop om dstr t st gs).2.1) :
    ∃ st' g', g' ∈ gs ∧ r = (mergeStep om dstr t st' g').2.1 := by
  induction gs generalizing st with
  | nil => cases hr
  | cons g rest ih =>
      simp only [mergeLoop] at hr
      rcases List.mem_cons.mp hr with h | h
      · exact ⟨st, g, List.mem_cons_self _ _, h⟩
      · obtain ⟨st', g', hg', hr'⟩ := ih _ h
        exact ⟨st', g', List.mem_cons_of_mem _ hg', hr'⟩

theorem mergeStep_record_keys (om : List (String × Dict))
    (dstr : Option String) (t : String) (st : Store) (g : Dict) :
    ∀ kv ∈ (mergeStep om dstr t st g).2.1,
      pyStartsWith kv.1 "espn_" = false := by
  intro kv hkv
  unfold mergeStep at hkv
  dsimp only at hkv
  rcases List.mem_append.mp hkv with h | h
  · rcases List.mem_append.mp h with h | h
    · rcases List.mem_append.mp h with h | h
      · obtain ⟨_, h2⟩ := List.mem_filter.mp h
        simpa using h2
      · fin_cases h <;> rfl
    · obtain ⟨h1, _⟩ := List.mem_filter.mp h
      obtain ⟨f', hf', rfl⟩ := List.mem_map.mp h1
      show pyStartsWith ("opening_" ++ f') "espn_" = false
      fin_cases hf' <;> rfl
  · fin_cases h <;> rfl

/-- C9.  `_merge_odds` never mutates its input game list — every input
dict leaves the loop exactly as it entered (the body only reads `g`) —
and every output record is a freshly built dict from which all `espn_*`
keys have been stripped. -/
theorem merge_no_mutation (espn_games : List Dict)
    (om : List (String × Dict)) (dstr : Option String) (t : String)
    (st : Store) :
    (_merge_odds espn_games om dstr t st).1 = espn_games ∧
    ∀ r ∈ (_merge_odds espn_games om dstr t st).2.1, ∀ kv ∈ r,
      pyStartsWith kv.1 "espn_" = false := by
  constructor
  · exact mergeLoop_fst om dstr t espn_games st
  · intro r hr kv hkv
    obtain ⟨st', g', _, rfl⟩ :=
      mergeLoop_records_mem om dstr t espn_games st r hr
    exact mergeStep_record_keys om dstr t st' g' kv hkv

/-- Witness for `calculate_parlay_invalid_leg` on ["0", "-110"]: the leg "0"
parses as the integer 0, whose conversion divides by zero. -/
theorem calculate_parlay_invalid_leg_witness :
    2 ≤ (["0", "-110"] : List String).length ∧
    american_to_decimal "0" = none ∧
    calculate_parlay ["0", "-110"] = .error "Invalid odds format" := by
  have h0 : american_to_decimal "0" = none := by
    have hp : pyParseInt "0" = some 0 := by decide
    unfold american_to_decimal
    rw [hp]; norm_num
  exact ⟨by decide, h0,
    calculate_parlay_invalid_leg _ (by decide) ⟨"0", by simp, h0⟩⟩

/-! ## The games endpoint fallback -/

/-- C8.  For every date requested from `get_games`: with no Firestore
cache and an ESPN refresh yielding no games, the endpoint returns the
hard-coded mock list with source "mock"; a non-empty Firestore cache is
returned as-is with source "live"; and with no cache but a non-empty ESPN
fetch, the (necessarily non-empty) merged list is returned with source
"live". -/
theorem get_games_fallback (cached espn : List Dict) (d : String)
    (st : Store) :
    (cached = [] → espn = [] →
      get_games cached espn d st = (MOCK_GAMES, "mock")) ∧
    (cached ≠ [] → get_games cached espn d st = (cached, "live")) ∧
    (cached = [] → espn ≠ [] →
      get_games cached espn d st =
        ((_merge_odds espn [] (some d) d st).2.1, "live") ∧
      (_merge_odds espn [] (some d) d st).2.1 ≠ []) := by
  refine ⟨?_, ?_, ?_⟩
  · intro hc he
    subst hc; subst he; rfl
  · intro hc
    cases cached with
    | nil => exact absurd rfl hc
    | cons a l => rfl
  · intro hc he
    subst hc
    have hespn : espn.isEmpty = false := by
      cases espn with
      | nil => exact absurd rfl he
      | cons a l => rfl
    have hne : (_merge_odds espn [] (some d) d st).2.1 ≠ [] := by
      intro h
      apply he
      have hl := merge_records_length espn [] (some d) d st
      rw [h] at hl
      exact (List.length_eq_zero.mp hl.symm)
    have hme : ((_merge_odds espn [] (some d) d st).2.1).isEmpty = false := by
      cases hm : (_merge_odds espn [] (some d) d st).2.1 with
      | nil => exact absurd hm hne
      | cons a l => rfl
    refine ⟨?_, hne⟩
    unfold get_games _full_espn_refresh
    simp [hespn, hme]

/-- Witness for `get_games_fallback`: empty cache, empty ESPN fetch. -/
theorem get_games_fallback_witness :
    get_games [] [] "20260110" [] = (MOCK_GAMES, "mock") :=
  (get_games_fallback [] [] "20260110" []).1 rfl rfl

/-! ## Gemini score clamping -/

theorem extract_score_range (text marker : String) :
    extract_score text marker = none ∨
    ∃ n : ℤ, 10 ≤ n ∧ n ≤ 50 ∧
      extract_score text marker = some ((n : ℚ) / 10) := by
  unfold extract_score
  cases h : scanFor (marker ++ ":").data text.data with
  | none => exact Or.inl rfl
  | some x =>
      right
      refine ⟨pyRound (min 5 (max 1 x) * 10), ?_, ?_, ?_⟩
      · have hy : (1 : ℚ) ≤ min 5 (max 1 x) :=
          le_min (by norm_num) (le_max_left 1 x)
        have hb := le_pyRound (min 5 (max 1 x) * 10)
        by_contra hn
        push_neg at hn
        have h9 : pyRound (min 5 (max 1 x) * 10) ≤ 9 := by omega
        have h9q : (pyRound (min 5 (max 1 x) * 10) : ℚ) ≤ 9 := by
          exact_mod_cast h9
        linarith
      · have hy : min 5 (max 1 x) ≤ (5 : ℚ) := min_le_left _ _
        have hb := pyRound_le (min 5 (max 1 x) * 10)
        by_contra hn
        push_neg at hn
        have h51 : (51 : ℤ) ≤ pyRound (min 5 (max 1 x) * 10) := by omega
        have h51q : (51 : ℚ) ≤ (pyRound (min 5 (max 1 x) * 10) : ℚ) := by
          exact_mod_cast h51
        linarith
      · simp only [Option.map_some']
        unfold pyRoundTo
        norm_num

theorem extract_score_clamp_high (text marker : String) (q : ℚ)
    (h : scanFor (marker ++ ":").data text.data = some q) (hq : 5 < q) :
    extract_score text marker = some 5 := by
  unfold extract_score
  rw [h]
  simp only [Option.map_some']
  have h1 : max 1 q = q := max_eq_right (by linarith)
  have h2 : min 5 (max 1 q) = 5 := by rw [h1]; exact min_eq_left (by linarith)
  rw [h2]
  unfold pyRoundTo
  have : ((5 : ℚ) * 10 ^ 1) = ((50 : ℤ) : ℚ) := by norm_num
  rw [this, pyRound_intCast]
  norm_num

theorem extract_score_clamp_low (text marker : String) (q : ℚ)
    (h : scanFor (marker ++ ":").data text.data = some q) (hq : q < 1) :
    extract_score text marker = some 1 := by
  unfold extract_score
  rw [h]
  simp only [Option.map_some']
  have h1 : max 1 q = 1 := max_eq_left (by linarith)
  have h2 : min 5 (max 1 q) = 1 := by rw [h1]; norm_num
  rw [h2]
  unfold pyRoundTo
  have : ((1 : ℚ) * 10 ^ 1) = ((10 : ℤ) : ℚ) := by norm_num
  rw [this, pyRound_intCast]
  norm_num

/-- C10.  For every input text, `parse_gemini_analysis` returns
`dubl_score_bet` and `dubl_score_ou` values that are each either `None` or
a multiple of 0.1 in the closed interval [1.0, 5.0] (i.e. clamped and
rounded to one decimal place); and whenever the marker's regex matches a
number outside that range, the score is the nearest bound, never the raw
value. -/
theorem gemini_scores_clamped (text : String) :
    ((parse_gemini_analysis text).dubl_score_bet = none ∨
      ∃ n : ℤ, 10 ≤ n ∧ n ≤ 50 ∧
        (parse_gemini_analysis text).dubl_score_bet = some ((n : ℚ) / 10)) ∧
    ((parse_gemini_analysis text).dubl_score_ou = none ∨
      ∃ n : ℤ, 10 ≤ n ∧ n ≤ 50 ∧
        (parse_gemini_analysis text).dubl_score_ou = some ((n : ℚ) / 10)) ∧
    (∀ q : ℚ, scanFor ("DUBL_SCORE_BET" ++ ":").data text.data = some q →
      (5 < q → (parse_gemini_analysis text).dubl_score_bet = some 5) ∧
      (q < 1 → (parse_gemini_analysis text).dubl_score_bet = some 1)) ∧
    (∀ q : ℚ, scanFor ("DUBL_SCORE_OU" ++ ":").data text.data = some q →
      (5 < q → (parse_gemini_analysis text).dubl_score_ou = some 5) ∧
      (q < 1 → (parse_gemini_analysis text).dubl_score_ou = some 1)) := by
  refine ⟨extract_score_range text "DUBL_SCORE_BET",
    extract_score_range text "DUBL_SCORE_OU", ?_, ?_⟩
  · intro q hq
    exact ⟨fun h5 => extract_score_clamp_high text "DUBL_SCORE_BET" q hq h5,
      fun h1 => extract_score_clamp_low text "DUBL_SCORE_BET" q hq h1⟩
  · intro q hq
    exact ⟨fun h5 => extract_score_clamp_high text "DUBL_SCORE_OU" q hq h5,
      fun h1 => extract_score_clamp_low text "DUBL_SCORE_OU" q hq h1⟩

/-- Witness for `gemini_scores_clamped`: a text carrying an out-of-range
7 for the bet score and 0 for the over/under score; both are clamped. -/
theorem gemini_scores_clamped_witness :
    (parse_gemini_analysis
      "DUBL_SCORE_BET: 7 DUBL_SCORE_OU: 0").dubl_score_bet = some 5 ∧
    (parse_gemini_analysis
      "DUBL_SCORE_BET: 7 DUBL_SCORE_OU: 0").dubl_score_ou = some 1 :=
  ⟨((gemini_scores_clamped "DUBL_SCORE_BET: 7 DUBL_SCORE_OU: 0").2.2.1
      7 rfl).1 (by norm_num),
   ((gemini_scores_clamped "DUBL_SCORE_BET: 7 DUBL_SCORE_OU: 0").2.2.2
      0 rfl).2 (by norm_num)⟩

end Dublplay
